import Mathlib

/-!
Shallow embedding of the abc-backend service (src/main.py): a read-mostly car
catalog behind a process-wide TTL cache, backed by a spreadsheet-like tabular
store and a file-storage provider, with best-effort usage logging.

Modelling conventions:
- Python dicts are association lists with unique keys (`Dict`); dict values in
  API payloads are `JVal` (string / int / rational / null / array), with Python
  `None` rendered as `JVal.null`.
- The external world is an `Env`: the tabular store (`sheets`), the file
  provider (`drive`), the permutation `random.shuffle` applies on this call
  (`shuffle`, an injectable source of randomness), and whether the usage-log
  append raises (`appendFails`).
- The process-wide mutable state is the cache `_cache` (a map from string key
  to entry) plus the rows appended to the "users" sheet; loaders touch only the
  cache, the event logger touches only the users rows, exactly as in the source.
- Wall-clock time is an explicit `now : Int` parameter (seconds).
- Fallible external calls return `Except String`; an uncaught Python exception
  is an `Except.error` propagating to the caller.
- Machine floats do not occur: the sheet cells are text and `parse_float` is
  modelled into `ℚ` by an exact decimal parser covering the sign/digits/point
  fragment of Python `float` (exotic forms such as exponents or underscores are
  treated as parse failures).
-/

deriving instance DecidableEq for Except

namespace AbcBackend

/-- Whitespace stripped by Python `str.strip`: space, tab, LF, CR, VT, FF. -/
def isPySpace (c : Char) : Bool :=
  c = ' ' || c = '\t' || c = '\n' || c = '\r' || c = '\x0b' || c = '\x0c'

/-- Characters of a string with leading and trailing whitespace removed. -/
def pyStripChars (cs : List Char) : List Char :=
  ((cs.dropWhile isPySpace).reverse.dropWhile isPySpace).reverse

/-- Python `str.strip()`. -/
def pyStrip (s : String) : String := ⟨pyStripChars s.data⟩

/-- ASCII lowering of one character (`str.lower` restricted to ASCII, which is
all that the photo file names use). -/
def lowerChar (c : Char) : Char :=
  if 65 ≤ c.toNat ∧ c.toNat ≤ 90 then Char.ofNat (c.toNat + 32) else c

/-- Python `str.lower()`, ASCII fragment. -/
def pyLower (s : String) : String := ⟨s.data.map lowerChar⟩

/-- Python `s.endswith(suffix)`. -/
def endsWithS (s suffix : String) : Bool := suffix.data.isSuffixOf s.data

/-- Effect of `.replace("$", "").replace(",", "")` in `parse_float`: every
dollar sign and comma is removed. -/
def stripCurrencyChars (cs : List Char) : List Char :=
  cs.filter (fun c => !(c == '$' || c == ','))

/-- Numeric value of a digit string (digits are checked by the callers). -/
def digitsToNat (cs : List Char) : Nat :=
  cs.foldl (fun a c => a * 10 + (c.toNat - 48)) 0

/-- Split a character list on a separator character ("1.2" into "1" and "2"). -/
def splitOnChar (sep : Char) : List Char → List (List Char)
  | [] => [[]]
  | c :: rest =>
    let r := splitOnChar sep rest
    if c = sep then [] :: r
    else
      match r with
      | [] => [[c]]
      | h :: t => (c :: h) :: t

/-- Exact rational value of the decimal numeral `intPart.fracPart`, as the
fraction (intPart * 10^k + fracPart) / 10^k. -/
def decToRat (intPart fracPart : List Char) : ℚ :=
  let k := Nat.pow 10 fracPart.length
  mkRat (Int.ofNat (digitsToNat intPart * k + digitsToNat fracPart)) k

/-- Unsigned decimal numeral: digit string with at most one point, at least one
digit overall (the fragment of Python `float` exercised by the sheet data). -/
def parseDecCore (cs : List Char) : Option ℚ :=
  match splitOnChar '.' cs with
  | [a] => if a ≠ [] ∧ a.all Char.isDigit then some (mkRat (Int.ofNat (digitsToNat a)) 1) else none
  | [a, b] =>
    if (a ≠ [] ∨ b ≠ []) ∧ a.all Char.isDigit ∧ b.all Char.isDigit then some (decToRat a b)
    else none
  | _ => none

/-- Signed decimal numeral: optional leading `+` or `-`. -/
def parseDecimal (cs : List Char) : Option ℚ :=
  match cs with
  | '-' :: rest => (parseDecCore rest).map Neg.neg
  | '+' :: rest => parseDecCore rest
  | _ => parseDecCore cs

/-- src/main.py `parse_int`: `int(v)` with every exception mapped to `None`.
The argument is the (possibly missing) cell text; `int` of a missing value
raises, hence `none`. -/
def parse_int (v : Option String) : Option Int :=
  match v with
  | none => none
  | some s =>
    let cs := pyStripChars s.data
    match cs with
    | '-' :: rest => if rest ≠ [] ∧ rest.all Char.isDigit then some (-(digitsToNat rest : Int)) else none
    | '+' :: rest => if rest ≠ [] ∧ rest.all Char.isDigit then some ((digitsToNat rest : Int)) else none
    | _ => if cs ≠ [] ∧ cs.all Char.isDigit then some ((digitsToNat cs : Int)) else none

/-- src/main.py `parse_float`: `None` for a falsy argument (missing cell or
empty text), otherwise `float` of the text with `$` and `,` removed and
whitespace stripped, with every exception mapped to `None`. -/
def parse_float (v : Option String) : Option ℚ :=
  match v with
  | none => none
  | some s =>
    if s = "" then none
    else parseDecimal (pyStripChars (stripCurrencyChars s.data))

/-- Association list standing for a Python dict; keys are unique in every dict
the program builds. -/
abbrev Dict (α : Type) := List (String × α)

/-- Python `d.get(k)`: value stored under `k`, if any. -/
def dget {α : Type} : Dict α → String → Option α
  | [], _ => none
  | (k, v) :: rest, key => if k = key then some v else dget rest key

/-- Python `d[k] = v`: replace the value under an existing key in place,
otherwise append the new pair (insertion order is preserved, as in dicts). -/
def dset {α : Type} (d : Dict α) (key : String) (v : α) : Dict α :=
  if (dget d key).isSome then d.map (fun p => if p.1 = key then (key, v) else p)
  else d ++ [(key, v)]

/-- Python `d.pop(k, None)`: drop the key if present. -/
def dpop {α : Type} (d : Dict α) (key : String) : Dict α :=
  d.filter (fun p => p.1 != key)

/-- JSON-like values appearing in response payloads; Python `None` is `null`. -/
inductive JVal : Type
  | s (v : String)
  | i (v : Int)
  | q (v : ℚ)
  | null
  | arr (vs : List String)
deriving DecidableEq

/-- An optional int as stored in a car dict (`None` for a parse failure). -/
def optIntJ : Option Int → JVal
  | some n => .i n
  | none => .null

/-- An optional rational as stored in a car dict. -/
def optQJ : Option ℚ → JVal
  | some x => .q x
  | none => .null

/-- An optional string as stored in a payload dict. -/
def optStrJ : Option String → JVal
  | some v => .s v
  | none => .null

/-- The string content of a dict value, if it is a string. -/
def jStr : JVal → Option String
  | .s v => some v
  | _ => none

/-- One slot of the process-wide cache: `{"data": ..., "ts": ...}`. -/
structure CacheEntry (α : Type) where
  data : α
  ts : Int
deriving DecidableEq

/-- The `_cache` dict: one optional entry per string key. -/
def Cache (α : Type) := String → Option (CacheEntry α)

/-- src/main.py `get_cached`: the stored value if an entry exists and its age
does not exceed `ttl`; the check is re-run on every read and an expired entry
is left in place (the cache itself is not modified by a read). -/
def get_cached {α : Type} (c : Cache α) (key : String) (ttl : Int) (now : Int) : Option α :=
  match c key with
  | none => none
  | some item => if now - item.ts > ttl then none else some item.data

/-- src/main.py `set_cache`: unconditionally overwrite the entry for `key`,
stamping the current time. -/
def set_cache {α : Type} (c : Cache α) (key : String) (data : α) (now : Int) : Cache α :=
  fun k => if k = key then some ⟨data, now⟩ else c k

/-- Values the application stores in its cache: the profile dict under key
"profile" and the car list under key "cars" (no other key is ever written). -/
inductive CacheVal : Type
  | profile (p : Dict JVal)
  | cars (cs : List (Dict JVal))
deriving DecidableEq

/-- A file as listed by the storage provider. -/
structure DriveFile where
  id : String
  name : String
deriving DecidableEq

/-- The external world of one call: sheet values (header row first) per sheet
name, folder listings per folder id, the permutation `random.shuffle` applies
on this call, and whether the usage-log append raises. -/
structure Env where
  sheets : String → Except String (List (List String))
  drive : String → Except String (List DriveFile)
  shuffle : List (Dict JVal) → List (Dict JVal)
  appendFails : Bool

/-- The process-wide mutable state: the cache plus the rows appended so far to
the "users" sheet. -/
structure St where
  cache : Cache CacheVal
  users : List (List String)

/-- The request metadata read by the event logger. -/
structure Req where
  now_iso : String
  client : Option String
  headers : Dict String
  path : String

/-- Config constant CACHE_TTL_CARS (seconds). -/
def CACHE_TTL_CARS : Int := 300

/-- Config constant CACHE_TTL_META (seconds). -/
def CACHE_TTL_META : Int := 1800

/-- Config constant HERO_FOLDER_ID. -/
def HERO_FOLDER_ID : String := "1gaPqjlItG0YZcKt78CBKIhOXenjrRSW6"

/-- One row dict of `read_sheet`: `item[h] = row[i] if i < len(row) else ""`
over the enumerated headers. -/
def buildItem (headers : List String) (row : List String) : Dict String :=
  headers.enum.foldl (fun item p => dset item p.2 (row.getD p.1 "")) []

/-- src/main.py `read_sheet`: fetch the raw values of a sheet and zip each data
row with the header row, padding short rows with the empty string. -/
def read_sheet (env : Env) (sheet_name : String) : Except String (List (Dict String)) :=
  match env.sheets sheet_name with
  | .error e => .error e
  | .ok values =>
    match values with
    | [] => .ok []
    | headers :: rows => .ok (rows.map (buildItem headers))

/-- Public display URL derived from a file id. -/
def photoUrl (fid : String) : String :=
  "https://lh3.googleusercontent.com/d/" ++ fid ++ "=w1200"

/-- src/main.py `load_photos`: empty result for a falsy folder id without any
provider call; otherwise list the folder and keep `.jpg`/`.jpeg`/`.png` files
(case-insensitive), each mapped to `(file id, display URL)`. -/
def load_photos (env : Env) (folder_id : Option String) : Except String (List (String × String)) :=
  if folder_id.getD "" = "" then .ok []
  else
    match env.drive (folder_id.getD "") with
    | .error e => .error e
    | .ok files =>
      .ok (files.filterMap (fun f =>
        let n := pyLower f.name
        if endsWithS n ".jpg" || endsWithS n ".jpeg" || endsWithS n ".png" then
          some (f.id, photoUrl f.id)
        else none))

/-- src/main.py `load_hero_image`: first photo URL of the hero folder, with
any failure caught and converted to `None`. -/
def load_hero_image (env : Env) : Option String :=
  match load_photos env (some HERO_FOLDER_ID) with
  | .error _ => none
  | .ok photos => photos.head?.map (fun p => p.2)

/-- A sheet row as a payload dict (string cells become string values). -/
def rowToJ (r : Dict String) : Dict JVal := r.map (fun p => (p.1, JVal.s p.2))

/-- Cache-miss path of `load_profile`: read the "profile" sheet, take the first
row (empty dict if none), attach `hero_image`, store and return. A read
failure propagates and leaves the cache untouched. -/
def load_profile_fetch (env : Env) (now : Int) (c : Cache CacheVal) :
    Except String (Dict JVal) × Cache CacheVal :=
  match read_sheet env "profile" with
  | .error e => (.error e, c)
  | .ok rows =>
    let profile := dset (rowToJ (rows.headD [])) "hero_image" (optStrJ (load_hero_image env))
    (.ok profile, set_cache c "profile" (.profile profile) now)

/-- src/main.py `load_profile`. The cached value is returned when it is truthy
(a non-empty dict), mirroring `if cached:`; the key "profile" only ever holds
profile values. -/
def load_profile (env : Env) (now : Int) (c : Cache CacheVal) :
    Except String (Dict JVal) × Cache CacheVal :=
  match get_cached c "profile" CACHE_TTL_META now with
  | some (.profile p) => if p.isEmpty then load_profile_fetch env now c else (.ok p, c)
  | _ => load_profile_fetch env now c

/-- One car dict built from one sheet row, or `none` when the row is skipped:
trimmed-empty `id` or `status == "hidden"`. Field coercions and defaults follow
the dict literal in `load_cars` (in particular `r.get("status", "active")`
falls back to "active" only when the key itself is missing). -/
def buildCar (r : Dict String) : Option (Dict JVal) :=
  if pyStrip ((dget r "id").getD "") = "" then none
  else if dget r "status" = some "hidden" then none
  else some [
    ("id", .s (pyStrip ((dget r "id").getD ""))),
    ("brand", .s (pyStrip ((dget r "brand").getD ""))),
    ("model", .s (pyStrip ((dget r "model").getD ""))),
    ("year", optIntJ (parse_int (dget r "year"))),
    ("price_usd", optQJ (parse_float (dget r "price_usd"))),
    ("price_krw", optQJ (parse_float (dget r "price_krw"))),
    ("mileage_km", optIntJ (parse_int (dget r "mileage_km"))),
    ("engine", .s ((dget r "engine").getD "")),
    ("transmission", .s ((dget r "transmission").getD "")),
    ("fuel", .s ((dget r "fuel").getD "")),
    ("description", .s ((dget r "description").getD "")),
    ("status", .s ((dget r "status").getD "active")),
    ("photos_folder_id", .s (pyStrip ((dget r "photos_folder_id").getD "")))]

/-- Cache-miss path of `load_cars`: read the "cars" sheet, build the kept car
dicts, shuffle, store and return. A read failure propagates and leaves the
cache untouched. -/
def load_cars_fetch (env : Env) (now : Int) (c : Cache CacheVal) :
    Except String (List (Dict JVal)) × Cache CacheVal :=
  match read_sheet env "cars" with
  | .error e => (.error e, c)
  | .ok rows =>
    let cars := env.shuffle (rows.filterMap buildCar)
    (.ok cars, set_cache c "cars" (.cars cars) now)

/-- src/main.py `load_cars`. The cached value is returned when it is truthy
(a non-empty list), mirroring `if cached:`; the key "cars" only ever holds car
lists. -/
def load_cars (env : Env) (now : Int) (c : Cache CacheVal) :
    Except String (List (Dict JVal)) × Cache CacheVal :=
  match get_cached c "cars" CACHE_TTL_CARS now with
  | some (.cars cs) => if cs.isEmpty then load_cars_fetch env now c else (.ok cs, c)
  | _ => load_cars_fetch env now c

/-- The row the event logger builds: timestamp, client IP (empty when there is
no client), user agent, request path, car id or empty. -/
def eventRow (req : Req) (car_id : Option String) : List String :=
  [req.now_iso, req.client.getD "", (dget req.headers "user-agent").getD "", req.path,
   car_id.getD ""]

/-- src/main.py `append_user_event`: append the event row to the "users" sheet;
the whole body sits in `try/except`, so when anything in it raises
(`env.appendFails`), the state is left as it was and nothing propagates. -/
def append_user_event (env : Env) (req : Req) (car_id : Option String) (st : St) : St :=
  if env.appendFails then st
  else { st with users := st.users ++ [eventRow req car_id] }

/-- Error outcomes of a request handler: a raised `HTTPException`, or an
uncaught upstream failure (turned into a 5xx by the framework). -/
inductive ApiErr : Type
  | httpExc (status : Nat) (detail : String)
  | upstream (msg : String)
deriving DecidableEq

/-- Handler of GET /api/profile. -/
def api_profile (env : Env) (now : Int) (st : St) : Except ApiErr (Dict JVal) × St :=
  match load_profile env now st.cache with
  | (.error e, c2) => (.error (.upstream e), { st with cache := c2 })
  | (.ok p, c2) => (.ok p, { st with cache := c2 })

/-- Per-car enrichment of the list endpoint: on a fresh copy, resolve the photo
folder, set `cover_image` to the first photo URL or `None`, drop
`photos_folder_id`. -/
def enrichListCar (env : Env) (c : Dict JVal) : Except String (Dict JVal) :=
  match load_photos env ((dget c "photos_folder_id").bind jStr) with
  | .error e => .error e
  | .ok photos =>
    .ok (dpop (dset c "cover_image"
      (match photos.head? with
       | some p => .s p.2
       | none => .null)) "photos_folder_id")

/-- The enrichment loop of GET /api/cars, in list order; the first photo
failure propagates. -/
def enrichAll (env : Env) : List (Dict JVal) → Except String (List (Dict JVal))
  | [] => .ok []
  | c :: rest =>
    match enrichListCar env c with
    | .error e => .error e
    | .ok car =>
      match enrichAll env rest with
      | .error e => .error e
      | .ok rs => .ok (car :: rs)

/-- Response computation of GET /api/cars (everything after the event append,
which touches only the cache): load the cars and return enriched copies. -/
def api_cars_response (env : Env) (now : Int) (c : Cache CacheVal) :
    Except ApiErr (List (Dict JVal)) × Cache CacheVal :=
  match load_cars env now c with
  | (.error e, c2) => (.error (.upstream e), c2)
  | (.ok cars, c2) =>
    match enrichAll env cars with
    | .error e => (.error (.upstream e), c2)
    | .ok result => (.ok result, c2)

/-- Handler of GET /api/cars: log the event (best-effort), then the response
computation; the append touches only the users rows and the loaders only the
cache, exactly as in the source. -/
def api_cars (env : Env) (now : Int) (req : Req) (st : St) :
    Except ApiErr (List (Dict JVal)) × St :=
  let st1 := append_user_event env req none st
  let r := api_cars_response env now st1.cache
  (r.1, { st1 with cache := r.2 })

/-- Response computation of GET /api/cars/{car_id} (everything after the event
append): find the first cached car with the exact id, 404 when none (or when
the match is a falsy empty dict, mirroring `if not base:`), otherwise a copy
enriched with `photos` and `cover_image` and without `photos_folder_id`. -/
def api_car_detail_response (env : Env) (now : Int) (car_id : String)
    (c : Cache CacheVal) :
    Except ApiErr (Dict JVal) × Cache CacheVal :=
  match load_cars env now c with
  | (.error e, c2) => (.error (.upstream e), c2)
  | (.ok cars, c2) =>
    match cars.find? (fun x => decide (dget x "id" = some (JVal.s car_id))) with
    | none => (.error (.httpExc 404 "Car not found"), c2)
    | some base =>
      if base.isEmpty then (.error (.httpExc 404 "Car not found"), c2)
      else
        match load_photos env ((dget base "photos_folder_id").bind jStr) with
        | .error e => (.error (.upstream e), c2)
        | .ok photos =>
          (.ok (dpop (dset (dset base "photos" (.arr (photos.map (fun p => p.2))))
            "cover_image"
            (match (photos.map (fun p => p.2)).head? with
             | some u => .s u
             | none => .null)) "photos_folder_id"), c2)

/-- Handler of GET /api/cars/{car_id}: log the event (best-effort), then the
response computation. -/
def api_car_detail (env : Env) (now : Int) (req : Req) (car_id : String) (st : St) :
    Except ApiErr (Dict JVal) × St :=
  let st1 := append_user_event env req (some car_id) st
  let r := api_car_detail_response env now car_id st1.cache
  (r.1, { st1 with cache := r.2 })

/-! Concrete fixtures used to instantiate the theorems below. -/

/-- The empty cache (process start). -/
def cacheEmpty : Cache CacheVal := fun _ => none

/-- The initial process state. -/
def stEmpty : St := { cache := cacheEmpty, users := [] }

/-- A sample request. -/
def reqW : Req :=
  { now_iso := "2026-01-01T00:00:00", client := some "1.2.3.4",
    headers := [("user-agent", "tester")], path := "/api/cars" }

/-- Store whose "cars" sheet has one row with an empty status cell. -/
def envC3 : Env :=
  { sheets := fun _ => .ok [["id", "status"], ["car1", ""]],
    drive := fun _ => .error "down", shuffle := id, appendFails := false }

/-- Store whose "profile" sheet has a `photos_folder_id` column. -/
def envP : Env :=
  { sheets := fun _ => .ok [["photos_folder_id"], ["F123"]],
    drive := fun _ => .error "down", shuffle := id, appendFails := false }

/-- Store with an empty "cars" sheet (the car list loads as the empty list). -/
def envC2a : Env :=
  { sheets := fun _ => .ok [], drive := fun _ => .error "down",
    shuffle := id, appendFails := false }

/-- Store whose "cars" sheet holds the single car z9. -/
def envC2b : Env :=
  { sheets := fun _ => .ok [["id"], ["z9"]], drive := fun _ => .error "down",
    shuffle := id, appendFails := false }

/-- Store whose "cars" sheet holds the single car a1. -/
def envW1 : Env :=
  { sheets := fun _ => .ok [["id"], ["a1"]], drive := fun _ => .error "down",
    shuffle := id, appendFails := false }

/-- The car list loaded from envW1: one car built from the row ["a1"] under
the single header "id". -/
def carsA1 : List (Dict JVal) :=
  [[("id", JVal.s "a1"), ("brand", JVal.s ""), ("model", JVal.s ""),
    ("year", JVal.null), ("price_usd", JVal.null), ("price_krw", JVal.null),
    ("mileage_km", JVal.null), ("engine", JVal.s ""), ("transmission", JVal.s ""),
    ("fuel", JVal.s ""), ("description", JVal.s ""), ("status", JVal.s "active"),
    ("photos_folder_id", JVal.s "")]]

/-- Store where every external call fails. -/
def envFail : Env :=
  { sheets := fun _ => .error "boom", drive := fun _ => .error "boom",
    shuffle := id, appendFails := false }

/-- A cached car whose photo folder is FD1. -/
def carW : Dict JVal := [("id", JVal.s "a1"), ("photos_folder_id", JVal.s "FD1")]

/-- State whose cars cache entry is `[carW]`, stored at time 0. -/
def stC5 : St :=
  { cache := fun k => if k = "cars" then some ⟨CacheVal.cars [carW], 0⟩ else none,
    users := [] }

/-- Environment where folder FD1 lists one jpg photo and the cars sheet is
never needed (the cache is fresh). -/
def envC5 : Env :=
  { sheets := fun _ => .error "unused",
    drive := fun f => if f = "FD1" then .ok [⟨"p1", "x.jpg"⟩] else .error "no",
    shuffle := id, appendFails := false }

/-- A well-formed loaded car: its stored id is a non-empty string and its
stored status is not "hidden". -/
def CarP (car : Dict JVal) : Prop :=
  (∃ s, dget car "id" = some (JVal.s s) ∧ s ≠ "") ∧
    dget car "status" ≠ some (JVal.s "hidden")

/-- Response of GET /api/cars against envC5/stC5. -/
def resW : List (Dict JVal) :=
  [[("id", JVal.s "a1"), ("cover_image", JVal.s (photoUrl "p1"))]]

/-- Response body of GET /api/cars/a1 against envC5/stC5. -/
def carDW : Dict JVal :=
  [("id", JVal.s "a1"), ("photos", JVal.arr [photoUrl "p1"]),
   ("cover_image", JVal.s (photoUrl "p1"))]

/-! Helper lemmas about the dict operations and the cache. -/

theorem dget_cons {α : Type} (k1 : String) (v1 : α) (tl : Dict α) (key : String) :
    dget ((k1, v1) :: tl) key = if k1 = key then some v1 else dget tl key := rfl

theorem dpop_cons {α : Type} (k1 : String) (v1 : α) (tl : Dict α) (key : String) :
    dpop ((k1, v1) :: tl) key
      = if k1 = key then dpop tl key else (k1, v1) :: dpop tl key := by
  unfold dpop
  by_cases hk : k1 = key <;> simp [List.filter_cons, hk]

theorem dget_map_replace {α : Type} (d : Dict α) (key : String) (v : α)
    (h : (dget d key).isSome) :
    dget (d.map (fun p => if p.1 = key then (key, v) else p)) key = some v := by
  induction d with
  | nil => simp [dget] at h
  | cons hd tl ih =>
    obtain ⟨k1, v1⟩ := hd
    rw [List.map_cons]
    by_cases hk : k1 = key
    · rw [show (if ((k1, v1) : String × α).1 = key then (key, v) else (k1, v1)) = (key, v)
          from if_pos hk]
      rw [dget_cons, if_pos rfl]
    · rw [show (if ((k1, v1) : String × α).1 = key then (key, v) else (k1, v1)) = (k1, v1)
          from if_neg hk]
      rw [dget_cons, if_neg hk]
      rw [dget_cons, if_neg hk] at h
      exact ih h

theorem dget_append_new {α : Type} (d : Dict α) (key : String) (v : α)
    (h : dget d key = none) :
    dget (d ++ [(key, v)]) key = some v := by
  induction d with
  | nil => rw [List.nil_append, dget_cons, if_pos rfl]
  | cons hd tl ih =>
    obtain ⟨k1, v1⟩ := hd
    rw [dget_cons] at h
    by_cases hk : k1 = key
    · rw [if_pos hk] at h
      exact absurd h (by simp)
    · rw [if_neg hk] at h
      rw [List.cons_append, dget_cons, if_neg hk]
      exact ih h

theorem dget_dset_self {α : Type} (d : Dict α) (key : String) (v : α) :
    dget (dset d key v) key = some v := by
  unfold dset
  by_cases h : (dget d key).isSome
  · rw [if_pos h]
    exact dget_map_replace d key v h
  · rw [if_neg h]
    refine dget_append_new d key v ?_
    cases hd : dget d key with
    | none => rfl
    | some x => exact absurd (by simp [hd]) h

theorem dget_map_replace_ne {α : Type} (d : Dict α) (key k2 : String) (v : α)
    (hne : k2 ≠ key) :
    dget (d.map (fun p => if p.1 = key then (key, v) else p)) k2 = dget d k2 := by
  induction d with
  | nil => rfl
  | cons hd tl ih =>
    obtain ⟨k1, v1⟩ := hd
    rw [List.map_cons]
    by_cases hk : k1 = key
    · have h1 : ¬ (k1 = k2) := fun hh => hne (hh.symm.trans hk)
      have h2 : ¬ (key = k2) := fun hh => hne hh.symm
      rw [show (if ((k1, v1) : String × α).1 = key then (key, v) else (k1, v1)) = (key, v)
          from if_pos hk]
      rw [dget_cons, if_neg h2, dget_cons, if_neg h1]
      exact ih
    · rw [show (if ((k1, v1) : String × α).1 = key then (key, v) else (k1, v1)) = (k1, v1)
          from if_neg hk]
      rw [dget_cons, dget_cons]
      by_cases hk2 : k1 = k2
      · rw [if_pos hk2, if_pos hk2]
      · rw [if_neg hk2, if_neg hk2]
        exact ih

theorem dget_append_ne {α : Type} (d : Dict α) (key k2 : String) (v : α)
    (hne : k2 ≠ key) :
    dget (d ++ [(key, v)]) k2 = dget d k2 := by
  induction d with
  | nil =>
    have h1 : ¬ (key = k2) := fun hh => hne hh.symm
    rw [List.nil_append, dget_cons, if_neg h1]
  | cons hd tl ih =>
    obtain ⟨k1, v1⟩ := hd
    rw [List.cons_append, dget_cons, dget_cons]
    by_cases hk : k1 = k2
    · rw [if_pos hk, if_pos hk]
    · rw [if_neg hk, if_neg hk]
      exact ih

theorem dget_dset_ne {α : Type} (d : Dict α) (key k2 : String) (v : α)
    (hne : k2 ≠ key) :
    dget (dset d key v) k2 = dget d k2 := by
  unfold dset
  by_cases h : (dget d key).isSome
  · rw [if_pos h]
    exact dget_map_replace_ne d key k2 v hne
  · rw [if_neg h]
    exact dget_append_ne d key k2 v hne

theorem dget_dpop_self {α : Type} (d : Dict α) (key : String) :
    dget (dpop d key) key = none := by
  induction d with
  | nil => rfl
  | cons hd tl ih =>
    obtain ⟨k1, v1⟩ := hd
    rw [dpop_cons]
    by_cases hk : k1 = key
    · rw [if_pos hk]
      exact ih
    · rw [if_neg hk, dget_cons, if_neg hk]
      exact ih

theorem dget_dpop_ne {α : Type} (d : Dict α) (key k2 : String) (hne : k2 ≠ key) :
    dget (dpop d key) k2 = dget d k2 := by
  induction d with
  | nil => rfl
  | cons hd tl ih =>
    obtain ⟨k1, v1⟩ := hd
    rw [dpop_cons, dget_cons]
    by_cases hk : k1 = key
    · have h1 : ¬ (k1 = k2) := fun hh => hne (hh.symm.trans hk)
      rw [if_pos hk, if_neg h1]
      exact ih
    · rw [if_neg hk, dget_cons]
      by_cases hk2 : k1 = k2
      · rw [if_pos hk2, if_pos hk2]
      · rw [if_neg hk2, if_neg hk2]
        exact ih

theorem get_cached_hit {α : Type} (c : Cache α) (key : String) (ttl now : Int)
    (v : α) (ts : Int) (h : c key = some ⟨v, ts⟩) (hf : ¬ now - ts > ttl) :
    get_cached c key ttl now = some v := by
  unfold get_cached
  rw [h]
  show (if now - ts > ttl then none else some v) = some v
  rw [if_neg hf]

theorem load_cars_hit (env : Env) (now : Int) (c : Cache CacheVal)
    (cs : List (Dict JVal)) (ts : Int)
    (h : c "cars" = some ⟨.cars cs, ts⟩) (hf : ¬ now - ts > CACHE_TTL_CARS)
    (hne : cs.isEmpty = false) :
    load_cars env now c = (.ok cs, c) := by
  unfold load_cars
  rw [get_cached_hit c "cars" CACHE_TTL_CARS now (.cars cs) ts h hf]
  show (if cs.isEmpty then load_cars_fetch env now c else (.ok cs, c)) = (.ok cs, c)
  rw [hne]
  rfl

theorem append_user_event_cache (env : Env) (req : Req) (cid : Option String)
    (st : St) :
    (append_user_event env req cid st).cache = st.cache := by
  unfold append_user_event
  by_cases h : env.appendFails <;> simp [h]

/-! Claim theorems. -/

/-- C1: immediately after `set_cache k v` at time s, `get_cached k t` read at
time n returns v when n - s ≤ t and is absent when n - s > t. Validity is
re-evaluated on the read; a read never modifies the cache (get_cached is a
pure function of it), so an expired entry is treated as absent, not purged. -/
theorem get_cached_after_set_cache {α : Type} (c : Cache α) (k : String) (v : α)
    (t s n : Int) :
    get_cached (set_cache c k v s) k t n = if n - s ≤ t then some v else none := by
  have h : set_cache c k v s k = some ⟨v, s⟩ := by
    unfold set_cache
    simp
  unfold get_cached
  rw [h]
  show (if n - s > t then none else some v) = (if n - s ≤ t then some v else none)
  by_cases hle : n - s ≤ t
  · rw [if_neg (by omega), if_pos hle]
  · rw [if_pos (by omega), if_neg hle]

/-- C2 counterexample: the claim fails when the populating call cached the
empty list. With an empty "cars" sheet, the first call populates the cache
with []; a second call 10s later (well inside the 300s window) does perform a
new fetch — its result tracks the store contents at that moment (here a store
now holding car z9) instead of returning the cached first result. -/
theorem load_cars_refetches_after_empty_populate :
    (load_cars envC2a 0 cacheEmpty).1 = .ok ([] : List (Dict JVal))
    ∧ ((load_cars envC2a 0 cacheEmpty).2) "cars" = some ⟨.cars [], 0⟩
    ∧ ((10 : Int) - 0 < CACHE_TTL_CARS)
    ∧ (load_cars envC2b 10 ((load_cars envC2a 0 cacheEmpty).2)).1
        ≠ .ok ([] : List (Dict JVal)) := by
  refine ⟨by decide, by decide, by decide, by decide⟩

/-- C2 (amended): when the populating call cached a non-empty list l, a second
`load_cars` within the TTL window is served from the cache: it returns l in the
same order, leaves the cache untouched, and consults neither the store nor the
shuffle — the second call's environment env2 is arbitrary, so its result cannot
depend on a fetch. The amendment, forced by the counterexample: the source
treats a cached empty list as falsy (`if cached:`) and refetches it, so the
no-refetch guarantee holds only when the populated list is non-empty. -/
theorem load_cars_second_call_within_ttl (env1 env2 : Env) (c : Cache CacheVal)
    (t0 t1 : Int) (l : List (Dict JVal))
    (_h1 : (load_cars env1 t0 c).1 = .ok l)
    (h2 : ((load_cars env1 t0 c).2) "cars" = some ⟨.cars l, t0⟩)
    (hne : l.isEmpty = false)
    (ht : t1 - t0 ≤ CACHE_TTL_CARS) :
    load_cars env2 t1 ((load_cars env1 t0 c).2) = (.ok l, (load_cars env1 t0 c).2) :=
  load_cars_hit env2 t1 _ l t0 h2 (not_lt.mpr ht) hne

/-- Witness for the amended C2 theorem: a store with one car a1 populates the
cache at time 0; at time 10 a call against a different store (envC2b, which
would return car z9 if fetched) still returns the cached car a1 list. -/
theorem load_cars_second_call_within_ttl_witness :
    (load_cars envW1 0 cacheEmpty).1 = .ok carsA1
    ∧ ((load_cars envW1 0 cacheEmpty).2) "cars" = some ⟨.cars carsA1, 0⟩
    ∧ carsA1.isEmpty = false
    ∧ ((10 : Int) - 0 ≤ CACHE_TTL_CARS)
    ∧ load_cars envC2b 10 ((load_cars envW1 0 cacheEmpty).2)
        = (.ok carsA1, (load_cars envW1 0 cacheEmpty).2) :=
  ⟨by decide, by decide, by decide, by decide,
   load_cars_second_call_within_ttl envW1 envC2b cacheEmpty 0 10 carsA1
     (by decide) (by decide) (by decide) (by decide)⟩

/-- C3: a cars row whose status cell is present but empty does NOT default to
"active". `read_sheet` materializes every header key (an empty cell becomes
""), so `r.get("status", "active")` finds the key and returns "" — the
"active" fallback fires only when the status column is missing altogether. The
loaded car a car1 with status "" contradicts the claimed default. -/
theorem load_cars_empty_status_not_defaulted :
    ((load_cars envC3 0 cacheEmpty).1.toOption.getD []).map
        (fun car => (dget car "id", dget car "status"))
      = [(some (JVal.s "car1"), some (JVal.s ""))]
    ∧ JVal.s "" ≠ JVal.s "active" := by
  refine ⟨by decide, by decide⟩

theorem load_profile_fetch_error_cache (env : Env) (now : Int) (c : Cache CacheVal)
    (e : String) (h : (load_profile_fetch env now c).1 = .error e) :
    (load_profile_fetch env now c).2 = c := by
  unfold load_profile_fetch at h ⊢
  cases hr : read_sheet env "profile" with
  | error e2 => simp only [hr]
  | ok rows =>
    simp only [hr] at h
    exact Except.noConfusion h

theorem load_cars_fetch_error_cache (env : Env) (now : Int) (c : Cache CacheVal)
    (e : String) (h : (load_cars_fetch env now c).1 = .error e) :
    (load_cars_fetch env now c).2 = c := by
  unfold load_cars_fetch at h ⊢
  cases hr : read_sheet env "cars" with
  | error e2 => simp only [hr]
  | ok rows =>
    simp only [hr] at h
    exact Except.noConfusion h

/-- C6: a load failure never populates the cache. When the store fetch inside
load_profile or load_cars raises, the error propagates to the caller (it is
the returned outcome) and the cache mapping is returned exactly as it was —
no entry written, none removed. -/
theorem load_failure_leaves_cache (env : Env) (now : Int) (c : Cache CacheVal) :
    (∀ e, (load_profile env now c).1 = .error e → (load_profile env now c).2 = c)
    ∧ (∀ e, (load_cars env now c).1 = .error e → (load_cars env now c).2 = c) := by
  constructor
  · intro e h
    unfold load_profile at h ⊢
    cases hg : get_cached c "profile" CACHE_TTL_META now with
    | none =>
      simp only [hg] at h ⊢
      exact load_profile_fetch_error_cache env now c e h
    | some val =>
      cases val with
      | profile p =>
        simp only [hg] at h ⊢
        by_cases hp : p.isEmpty
        · rw [if_pos hp] at h ⊢
          exact load_profile_fetch_error_cache env now c e h
        · rw [if_neg hp]
      | cars cs =>
        simp only [hg] at h ⊢
        exact load_profile_fetch_error_cache env now c e h
  · intro e h
    unfold load_cars at h ⊢
    cases hg : get_cached c "cars" CACHE_TTL_CARS now with
    | none =>
      simp only [hg] at h ⊢
      exact load_cars_fetch_error_cache env now c e h
    | some val =>
      cases val with
      | profile p =>
        simp only [hg] at h ⊢
        exact load_cars_fetch_error_cache env now c e h
      | cars cs =>
        simp only [hg] at h ⊢
        by_cases hp : cs.isEmpty
        · rw [if_pos hp] at h ⊢
          exact load_cars_fetch_error_cache env now c e h
        · rw [if_neg hp]

/-- Witness for C6: against a store where every read raises "boom", both
loaders propagate the error and return the cache unchanged. -/
theorem load_failure_leaves_cache_witness :
    (load_profile envFail 0 cacheEmpty).1 = .error "boom"
    ∧ (load_profile envFail 0 cacheEmpty).2 = cacheEmpty
    ∧ (load_cars envFail 0 cacheEmpty).1 = .error "boom"
    ∧ (load_cars envFail 0 cacheEmpty).2 = cacheEmpty :=
  ⟨by decide,
   (load_failure_leaves_cache envFail 0 cacheEmpty).1 "boom" (by decide),
   by decide,
   (load_failure_leaves_cache envFail 0 cacheEmpty).2 "boom" (by decide)⟩

theorem set_cache_self {α : Type} (c : Cache α) (key : String) (v : α) (now : Int) :
    set_cache c key v now key = some ⟨v, now⟩ := by
  unfold set_cache
  simp

theorem get_cached_some {α : Type} (c : Cache α) (key : String) (ttl now : Int)
    (v : α) (h : get_cached c key ttl now = some v) :
    ∃ ts, c key = some ⟨v, ts⟩ := by
  unfold get_cached at h
  cases hc : c key with
  | none =>
    rw [hc] at h
    exact Option.noConfusion h
  | some item =>
    rw [hc] at h
    change (if now - item.ts > ttl then none else some item.data) = some v at h
    by_cases hf : now - item.ts > ttl
    · rw [if_pos hf] at h
      exact Option.noConfusion h
    · rw [if_neg hf] at h
      have hd := Option.some.inj h
      refine ⟨item.ts, ?_⟩
      cases item
      cases hd
      rfl

theorem buildCar_eq_none_iff (r : Dict String) :
    buildCar r = none ↔
      (pyStrip ((dget r "id").getD "") = "" ∨ dget r "status" = some "hidden") := by
  unfold buildCar
  by_cases h1 : pyStrip ((dget r "id").getD "") = ""
  · rw [if_pos h1]
    exact ⟨fun _ => Or.inl h1, fun _ => rfl⟩
  · rw [if_neg h1]
    by_cases h2 : dget r "status" = some "hidden"
    · rw [if_pos h2]
      exact ⟨fun _ => Or.inr h2, fun _ => rfl⟩
    · rw [if_neg h2]
      constructor
      · intro hcon
        exact Option.noConfusion hcon
      · intro hor
        rcases hor with ha | hb
        · exact absurd ha h1
        · exact absurd hb h2

theorem buildCar_some_P (r : Dict String) (car : Dict JVal) (h : buildCar r = some car) :
    CarP car := by
  unfold buildCar at h
  by_cases h1 : pyStrip ((dget r "id").getD "") = ""
  · rw [if_pos h1] at h
    exact Option.noConfusion h
  · rw [if_neg h1] at h
    by_cases h2 : dget r "status" = some "hidden"
    · rw [if_pos h2] at h
      exact Option.noConfusion h
    · rw [if_neg h2] at h
      obtain rfl := (Option.some.inj h).symm
      constructor
      · exact ⟨pyStrip ((dget r "id").getD ""), rfl, h1⟩
      · intro hcon
        have hval : ((dget r "status").getD "active") = "hidden" := by
          have h3 : some (JVal.s ((dget r "status").getD "active"))
              = some (JVal.s "hidden") := hcon
          have h4 := Option.some.inj h3
          injection h4
        cases hst : dget r "status" with
        | none =>
          rw [hst, Option.getD_none] at hval
          exact absurd hval (by decide)
        | some v =>
          rw [hst, Option.getD_some] at hval
          exact h2 (by rw [hst, hval])

theorem buildCar_fields (r : Dict String) (car : Dict JVal) (h : buildCar r = some car) :
    dget car "year" = some (optIntJ (parse_int (dget r "year")))
    ∧ dget car "price_usd" = some (optQJ (parse_float (dget r "price_usd")))
    ∧ dget car "price_krw" = some (optQJ (parse_float (dget r "price_krw")))
    ∧ dget car "mileage_km" = some (optIntJ (parse_int (dget r "mileage_km"))) := by
  unfold buildCar at h
  by_cases h1 : pyStrip ((dget r "id").getD "") = ""
  · rw [if_pos h1] at h
    exact Option.noConfusion h
  · rw [if_neg h1] at h
    by_cases h2 : dget r "status" = some "hidden"
    · rw [if_pos h2] at h
      exact Option.noConfusion h
    · rw [if_neg h2] at h
      obtain rfl := (Option.some.inj h).symm
      exact ⟨rfl, rfl, rfl, rfl⟩

theorem load_cars_fetch_ok (env : Env) (now : Int) (c : Cache CacheVal)
    (l : List (Dict JVal)) (c2 : Cache CacheVal)
    (h : load_cars_fetch env now c = (.ok l, c2)) :
    (∃ rows, read_sheet env "cars" = .ok rows ∧ l = env.shuffle (rows.filterMap buildCar))
    ∧ c2 = set_cache c "cars" (.cars l) now := by
  unfold load_cars_fetch at h
  cases hr : read_sheet env "cars" with
  | error e =>
    simp only [hr, Prod.mk.injEq] at h
    exact absurd h.1 (fun hh => Except.noConfusion hh)
  | ok rows =>
    simp only [hr, Prod.mk.injEq] at h
    obtain ⟨h1, h2⟩ := h
    obtain rfl := (Except.ok.inj h1).symm
    exact ⟨⟨rows, rfl, rfl⟩, h2.symm⟩

theorem load_cars_fetch_P (env : Env) (now : Int) (c : Cache CacheVal)
    (hperm : ∀ l, List.Perm (env.shuffle l) l)
    (l : List (Dict JVal)) (c2 : Cache CacheVal)
    (h : load_cars_fetch env now c = (.ok l, c2)) :
    (∀ x ∈ l, CarP x)
    ∧ ∀ cs ts, c2 "cars" = some ⟨.cars cs, ts⟩ → ∀ x ∈ cs, CarP x := by
  obtain ⟨⟨rows, hr, hl⟩, hc2⟩ := load_cars_fetch_ok env now c l c2 h
  subst hl
  subst hc2
  have hmain : ∀ x ∈ env.shuffle (rows.filterMap buildCar), CarP x := by
    intro x hx
    have hx2 : x ∈ rows.filterMap buildCar := (hperm _).mem_iff.mp hx
    obtain ⟨r, _hrmem, hbr⟩ := List.mem_filterMap.mp hx2
    exact buildCar_some_P r x hbr
  refine ⟨hmain, ?_⟩
  intro cs ts hcc
  rw [set_cache_self] at hcc
  have h3 := Option.some.inj hcc
  injection h3 with hd hts
  injection hd with hl2
  subst hl2
  exact hmain

/-- C4: load_cars never returns (and never caches) a car built from a row
with an empty or whitespace-only id, or from a row whose status is exactly
"hidden": such rows are dropped by buildCar, and every car that does come out
of load_cars — from a fresh fetch or from a cache whose entries were produced
the same way — has a non-empty id and a status other than "hidden". The
shuffle is an arbitrary permutation. -/
theorem load_cars_excludes_bad_rows (env : Env) (now : Int) (c : Cache CacheVal)
    (hperm : ∀ l, List.Perm (env.shuffle l) l)
    (hinv : ∀ cs ts, c "cars" = some ⟨.cars cs, ts⟩ → ∀ x ∈ cs, CarP x) :
    (∀ r, (pyStrip ((dget r "id").getD "") = "" ∨ dget r "status" = some "hidden") →
        buildCar r = none)
    ∧ ∀ l c2, load_cars env now c = (.ok l, c2) →
        (∀ x ∈ l, CarP x)
        ∧ ∀ cs ts, c2 "cars" = some ⟨.cars cs, ts⟩ → ∀ x ∈ cs, CarP x := by
  constructor
  · intro r hr
    exact (buildCar_eq_none_iff r).mpr hr
  · intro l c2 h
    unfold load_cars at h
    cases hg : get_cached c "cars" CACHE_TTL_CARS now with
    | none =>
      simp only [hg] at h
      exact load_cars_fetch_P env now c hperm l c2 h
    | some val =>
      cases val with
      | profile p =>
        simp only [hg] at h
        exact load_cars_fetch_P env now c hperm l c2 h
      | cars cs =>
        simp only [hg] at h
        by_cases hp : cs.isEmpty
        · rw [if_pos hp] at h
          exact load_cars_fetch_P env now c hperm l c2 h
        · rw [if_neg hp] at h
          rw [Prod.mk.injEq] at h
          obtain ⟨h1, h2⟩ := h
          obtain rfl := Except.ok.inj h1
          obtain ⟨ts, hc⟩ := get_cached_some c "cars" CACHE_TTL_CARS now (CacheVal.cars cs) hg
          constructor
          · intro x hx
            exact hinv cs ts hc x hx
          · intro cs2 ts2 hcc
            rw [← h2] at hcc
            exact hinv cs2 ts2 hcc

/-- Witness for C4 at a concrete run: the identity shuffle is a permutation,
the empty cache satisfies the invariant vacuously, and the loaded list from
envW1 consists of well-formed cars. -/
theorem load_cars_excludes_bad_rows_witness :
    (∀ l, List.Perm (envW1.shuffle l) l)
    ∧ (∀ x ∈ carsA1, CarP x) :=
  ⟨fun l => List.Perm.refl l,
   fun x hx =>
     ((load_cars_excludes_bad_rows envW1 0 cacheEmpty (fun l => List.Perm.refl l)
        (fun _cs _ts hcc => nomatch hcc)).2 carsA1 ((load_cars envW1 0 cacheEmpty).2)
        (Prod.ext (by decide) rfl)).1 x hx⟩

theorem load_cars_fetch_isOk (env : Env) (now : Int) (c : Cache CacheVal)
    (values : List (List String)) (h : env.sheets "cars" = .ok values) :
    ∃ l, (load_cars_fetch env now c).1 = .ok l := by
  unfold load_cars_fetch read_sheet
  rw [h]
  cases values with
  | nil => exact ⟨env.shuffle [], rfl⟩
  | cons headers rows =>
    exact ⟨env.shuffle ((rows.map (buildItem headers)).filterMap buildCar), rfl⟩

theorem load_cars_isOk (env : Env) (now : Int) (c : Cache CacheVal)
    (values : List (List String)) (h : env.sheets "cars" = .ok values) :
    ∃ l, (load_cars env now c).1 = .ok l := by
  unfold load_cars
  cases hg : get_cached c "cars" CACHE_TTL_CARS now with
  | none =>
    simp only [hg]
    exact load_cars_fetch_isOk env now c values h
  | some val =>
    cases val with
    | profile p =>
      simp only [hg]
      exact load_cars_fetch_isOk env now c values h
    | cars cs =>
      simp only [hg]
      by_cases hp : cs.isEmpty
      · rw [if_pos hp]
        exact load_cars_fetch_isOk env now c values h
      · rw [if_neg hp]
        exact ⟨cs, rfl⟩

/-- C9: the currency parser maps "$12,345.00" to the rational 12345 (12345.0)
and maps the empty string or unparsable text to absence; a numeric or currency
parse failure is confined to the field — a row is dropped only by the id or
status guards, a kept row's numeric fields hold exactly the parse results
(null on failure), and the whole load still succeeds whenever the sheet read
does. -/
theorem parse_failures_degrade_to_absence (env : Env) (now : Int)
    (c : Cache CacheVal) (values : List (List String))
    (h : env.sheets "cars" = .ok values) :
    parse_float (some "$12,345.00") = some (12345 : ℚ)
    ∧ parse_float (some "") = none
    ∧ parse_float (some "call for price") = none
    ∧ parse_int (some "soon") = none
    ∧ (∀ r, buildCar r = none ↔
        (pyStrip ((dget r "id").getD "") = "" ∨ dget r "status" = some "hidden"))
    ∧ (∀ r car, buildCar r = some car →
        dget car "year" = some (optIntJ (parse_int (dget r "year")))
        ∧ dget car "price_usd" = some (optQJ (parse_float (dget r "price_usd")))
        ∧ dget car "price_krw" = some (optQJ (parse_float (dget r "price_krw")))
        ∧ dget car "mileage_km" = some (optIntJ (parse_int (dget r "mileage_km"))))
    ∧ ∃ l, (load_cars env now c).1 = .ok l :=
  ⟨by decide, by decide, by decide, by decide,
   fun r => buildCar_eq_none_iff r,
   fun r car hcar => buildCar_fields r car hcar,
   load_cars_isOk env now c values h⟩

/-- Witness for C9 at the concrete store envW1. -/
theorem parse_failures_degrade_to_absence_witness :
    envW1.sheets "cars" = .ok [["id"], ["a1"]]
    ∧ ∃ l, (load_cars envW1 0 cacheEmpty).1 = .ok l :=
  ⟨by decide,
   (parse_failures_degrade_to_absence envW1 0 cacheEmpty [["id"], ["a1"]]
      (by decide)).2.2.2.2.2.2⟩

theorem load_cars_env_congr (e1 e2 : Env) (now : Int) (c : Cache CacheVal)
    (hs : e1.sheets = e2.sheets) (hsh : e1.shuffle = e2.shuffle) :
    load_cars e1 now c = load_cars e2 now c := by
  unfold load_cars load_cars_fetch read_sheet
  rw [hs, hsh]

theorem load_photos_env_congr (e1 e2 : Env) (hd : e1.drive = e2.drive)
    (fid : Option String) :
    load_photos e1 fid = load_photos e2 fid := by
  unfold load_photos
  rw [hd]

theorem enrichListCar_env_congr (e1 e2 : Env) (hd : e1.drive = e2.drive)
    (c : Dict JVal) :
    enrichListCar e1 c = enrichListCar e2 c := by
  unfold enrichListCar
  rw [load_photos_env_congr e1 e2 hd]

theorem enrichAll_env_congr (e1 e2 : Env) (hd : e1.drive = e2.drive)
    (l : List (Dict JVal)) :
    enrichAll e1 l = enrichAll e2 l := by
  induction l with
  | nil => rfl
  | cons c rest ih =>
    unfold enrichAll
    rw [enrichListCar_env_congr e1 e2 hd, ih]

theorem api_cars_response_env_congr (e1 e2 : Env) (now : Int) (c : Cache CacheVal)
    (hs : e1.sheets = e2.sheets) (hd : e1.drive = e2.drive)
    (hsh : e1.shuffle = e2.shuffle) :
    api_cars_response e1 now c = api_cars_response e2 now c := by
  unfold api_cars_response
  rw [load_cars_env_congr e1 e2 now c hs hsh]
  simp only [enrichAll_env_congr e1 e2 hd]

theorem api_cars_fst_eq (e1 e2 : Env) (now : Int) (req : Req) (st : St)
    (hs : e1.sheets = e2.sheets) (hd : e1.drive = e2.drive)
    (hsh : e1.shuffle = e2.shuffle) :
    (api_cars e1 now req st).1 = (api_cars e2 now req st).1 := by
  simp only [api_cars]
  rw [append_user_event_cache, append_user_event_cache,
      api_cars_response_env_congr e1 e2 now st.cache hs hd hsh]

/-- C7: the user-event append is fully fenced by its own try/except — whether
or not everything inside it raises (appendFails true or false), the response
of GET /api/cars is exactly the same; in particular, whenever the handler
succeeds without the failure, it succeeds with the identical car payload under
the failure. -/
theorem append_failure_response_unchanged (env : Env) (now : Int) (req : Req)
    (st : St) :
    (api_cars { env with appendFails := true } now req st).1
      = (api_cars { env with appendFails := false } now req st).1
    ∧ ∀ res, (api_cars { env with appendFails := false } now req st).1 = .ok res →
        (api_cars { env with appendFails := true } now req st).1 = .ok res := by
  have key : (api_cars { env with appendFails := true } now req st).1
      = (api_cars { env with appendFails := false } now req st).1 :=
    api_cars_fst_eq _ _ now req st rfl rfl rfl
  exact ⟨key, fun res hres => key.trans hres⟩

/-- Witness for C7: against envC5 the list endpoint returns the enriched car
a1 with status 200, identically with and without the append failure. -/
theorem append_failure_response_unchanged_witness :
    (api_cars { envC5 with appendFails := false } 10 reqW stC5).1 = .ok resW
    ∧ (api_cars { envC5 with appendFails := true } 10 reqW stC5).1 = .ok resW :=
  ⟨by decide,
   (append_failure_response_unchanged envC5 10 reqW stC5).2 resW (by decide)⟩

theorem enrichListCar_strips (env : Env) (c car : Dict JVal)
    (h : enrichListCar env c = .ok car) :
    dget car "photos_folder_id" = none := by
  unfold enrichListCar at h
  cases hp : load_photos env ((dget c "photos_folder_id").bind jStr) with
  | error e =>
    simp only [hp] at h
    exact Except.noConfusion h
  | ok photos =>
    simp only [hp] at h
    obtain rfl := (Except.ok.inj h).symm
    exact dget_dpop_self _ _

theorem enrichAll_strips (env : Env) (l res : List (Dict JVal))
    (h : enrichAll env l = .ok res) :
    ∀ x ∈ res, dget x "photos_folder_id" = none := by
  induction l generalizing res with
  | nil =>
    unfold enrichAll at h
    obtain rfl := (Except.ok.inj h).symm
    intro x hx
    exact absurd hx (List.not_mem_nil x)
  | cons c rest ih =>
    unfold enrichAll at h
    cases h1 : enrichListCar env c with
    | error e =>
      simp only [h1] at h
      exact Except.noConfusion h
    | ok car =>
      simp only [h1] at h
      cases h2 : enrichAll env rest with
      | error e =>
        simp only [h2] at h
        exact Except.noConfusion h
      | ok rs =>
        simp only [h2] at h
        obtain rfl := (Except.ok.inj h).symm
        intro x hx
        rcases List.mem_cons.mp hx with rfl | hx2
        · exact enrichListCar_strips env c x h1
        · exact ih rs h2 x hx2

theorem api_cars_response_ok (env : Env) (now : Int) (c : Cache CacheVal)
    (res : List (Dict JVal)) (c2 : Cache CacheVal)
    (h : api_cars_response env now c = (.ok res, c2)) :
    ∃ cars, enrichAll env cars = .ok res ∧ load_cars env now c = (.ok cars, c2) := by
  unfold api_cars_response at h
  rcases hl : load_cars env now c with ⟨r, cc⟩
  rw [hl] at h
  cases r with
  | error e =>
    simp only [Prod.mk.injEq] at h
    exact absurd h.1 (fun hh => Except.noConfusion hh)
  | ok cars =>
    cases he : enrichAll env cars with
    | error e =>
      simp only [he, Prod.mk.injEq] at h
      exact absurd h.1 (fun hh => Except.noConfusion hh)
    | ok result =>
      simp only [he, Prod.mk.injEq] at h
      obtain ⟨h1, h2⟩ := h
      obtain rfl := Except.ok.inj h1
      subst h2
      exact ⟨cars, he, rfl⟩

theorem api_cars_ok (env : Env) (now : Int) (req : Req) (st : St)
    (res : List (Dict JVal)) (st2 : St)
    (h : api_cars env now req st = (.ok res, st2)) :
    ∃ cars, enrichAll env cars = .ok res
      ∧ load_cars env now st.cache = (.ok cars, st2.cache) := by
  simp only [api_cars, append_user_event_cache, Prod.mk.injEq] at h
  obtain ⟨h1, h2⟩ := h
  obtain ⟨cars, he, hl⟩ := api_cars_response_ok env now st.cache res
    ((api_cars_response env now st.cache).2) (Prod.ext h1 rfl)
  refine ⟨cars, he, ?_⟩
  rw [hl, ← h2]

theorem api_car_detail_response_ok_strips (env : Env) (now : Int)
    (car_id : String) (c : Cache CacheVal) (car : Dict JVal) (c2 : Cache CacheVal)
    (h : api_car_detail_response env now car_id c = (.ok car, c2)) :
    dget car "photos_folder_id" = none
    ∧ c2 = (load_cars env now c).2 := by
  unfold api_car_detail_response at h
  rcases hl : load_cars env now c with ⟨r, cc⟩
  rw [hl] at h
  cases r with
  | error e =>
    simp only [Prod.mk.injEq] at h
    exact absurd h.1 (fun hh => Except.noConfusion hh)
  | ok cars =>
    cases hf : cars.find? (fun x => decide (dget x "id" = some (JVal.s car_id))) with
    | none =>
      simp only [hf, Prod.mk.injEq] at h
      exact absurd h.1 (fun hh => Except.noConfusion hh)
    | some base =>
      simp only [hf] at h
      by_cases hb : base.isEmpty
      · rw [if_pos hb] at h
        simp only [Prod.mk.injEq] at h
        exact absurd h.1 (fun hh => Except.noConfusion hh)
      · rw [if_neg hb] at h
        cases hp : load_photos env ((dget base "photos_folder_id").bind jStr) with
        | error e =>
          simp only [hp, Prod.mk.injEq] at h
          exact absurd h.1 (fun hh => Except.noConfusion hh)
        | ok photos =>
          simp only [hp, Prod.mk.injEq] at h
          obtain ⟨h1, h2⟩ := h
          obtain rfl := (Except.ok.inj h1).symm
          subst h2
          exact ⟨dget_dpop_self _ _, rfl⟩

theorem api_car_detail_ok_strips (env : Env) (now : Int) (req : Req)
    (car_id : String) (st : St) (car : Dict JVal) (st2 : St)
    (h : api_car_detail env now req car_id st = (.ok car, st2)) :
    dget car "photos_folder_id" = none
    ∧ st2.cache = (load_cars env now st.cache).2 := by
  simp only [api_car_detail, append_user_event_cache, Prod.mk.injEq] at h
  obtain ⟨h1, h2⟩ := h
  obtain ⟨hs, hc⟩ := api_car_detail_response_ok_strips env now car_id st.cache car
    ((api_car_detail_response env now car_id st.cache).2) (Prod.ext h1 rfl)
  refine ⟨hs, ?_⟩
  rw [← h2, hc]

/-- C8 counterexample: the claim covers GET /api/profile, but that handler
returns the profile sheet row verbatim; against a store whose profile sheet
has a `photos_folder_id` column, the response body does contain the
photos_folder_id field. -/
theorem api_profile_exposes_photos_folder_id :
    (api_profile envP 0 stEmpty).1
      = .ok [("photos_folder_id", JVal.s "F123"), ("hero_image", JVal.null)]
    ∧ dget [("photos_folder_id", JVal.s "F123"), ("hero_image", JVal.null)]
        "photos_folder_id" = some (JVal.s "F123") := by
  refine ⟨by decide, by decide⟩

/-- C8 (amended): the car endpoints never expose photosFolderId — every car in
a successful GET /api/cars response and the body of a successful
GET /api/cars/{id} lack the field — and per-request enrichment works on fresh
copies only: the cache after either endpoint is exactly the cache left by
load_cars (which stores the un-enriched cars), and on a fresh non-empty cache
hit the cache mapping is completely unchanged. The amendment, forced by the
counterexample: GET /api/profile echoes the profile sheet row, so a
photos_folder_id column there does reach the response body. -/
theorem car_endpoints_strip_photos_folder_id (env : Env) (now : Int) (req : Req)
    (car_id : String) (st : St) :
    (∀ res st2, api_cars env now req st = (.ok res, st2) →
        (∀ x ∈ res, dget x "photos_folder_id" = none)
        ∧ st2.cache = (load_cars env now st.cache).2)
    ∧ (∀ car st2, api_car_detail env now req car_id st = (.ok car, st2) →
        dget car "photos_folder_id" = none
        ∧ st2.cache = (load_cars env now st.cache).2)
    ∧ (∀ cs ts, st.cache "cars" = some ⟨.cars cs, ts⟩ → cs.isEmpty = false →
        now - ts ≤ CACHE_TTL_CARS → (load_cars env now st.cache).2 = st.cache) := by
  refine ⟨?_, ?_, ?_⟩
  · intro res st2 h
    obtain ⟨cars, he, hl⟩ := api_cars_ok env now req st res st2 h
    refine ⟨enrichAll_strips env cars res he, ?_⟩
    rw [hl]
  · intro car st2 h
    exact api_car_detail_ok_strips env now req car_id st car st2 h
  · intro cs ts hc hne hfresh
    rw [load_cars_hit env now st.cache cs ts hc (not_lt.mpr hfresh) hne]

/-- Witness for the amended C8 theorem: concrete runs of both car endpoints
against envC5/stC5, whose cached car still holds its photos_folder_id while
the response bodies do not. -/
theorem car_endpoints_strip_photos_folder_id_witness :
    (∀ x ∈ resW, dget x "photos_folder_id" = none)
    ∧ ((api_cars envC5 10 reqW stC5).2).cache = (load_cars envC5 10 stC5.cache).2
    ∧ dget carDW "photos_folder_id" = none
    ∧ (load_cars envC5 10 stC5.cache).2 = stC5.cache :=
  ⟨((car_endpoints_strip_photos_folder_id envC5 10 reqW "a1" stC5).1 resW
      ((api_cars envC5 10 reqW stC5).2) (Prod.ext (by decide) rfl)).1,
   ((car_endpoints_strip_photos_folder_id envC5 10 reqW "a1" stC5).1 resW
      ((api_cars envC5 10 reqW stC5).2) (Prod.ext (by decide) rfl)).2,
   (((car_endpoints_strip_photos_folder_id envC5 10 reqW "a1" stC5).2.1 carDW
      ((api_car_detail envC5 10 reqW "a1" stC5).2) (Prod.ext (by decide) rfl))).1,
   (car_endpoints_strip_photos_folder_id envC5 10 reqW "a1" stC5).2.2 [carW] 0
      (by decide) (by decide) (by decide)⟩

theorem api_car_detail_fst (env : Env) (now : Int) (req : Req) (car_id : String)
    (st : St) :
    (api_car_detail env now req car_id st).1
      = (api_car_detail_response env now car_id st.cache).1 := by
  simp only [api_car_detail, append_user_event_cache]

theorem find_id_none_of_miss (cs : List (Dict JVal)) (cid : String)
    (hmiss : ∀ x ∈ cs, dget x "id" ≠ some (JVal.s cid)) :
    cs.find? (fun x => decide (dget x "id" = some (JVal.s cid))) = none := by
  rw [List.find?_eq_none]
  intro x hx
  simp only [decide_eq_true_eq]
  exact hmiss x hx

theorem api_car_detail_response_miss_404 (env : Env) (now : Int) (car_id : String)
    (c : Cache CacheVal) (cs : List (Dict JVal)) (ts : Int)
    (hc : c "cars" = some ⟨.cars cs, ts⟩)
    (hfresh : now - ts ≤ CACHE_TTL_CARS)
    (hne : cs.isEmpty = false)
    (hmiss : ∀ x ∈ cs, dget x "id" ≠ some (JVal.s car_id)) :
    (api_car_detail_response env now car_id c).1
      = .error (.httpExc 404 "Car not found") := by
  unfold api_car_detail_response
  rw [load_cars_hit env now c cs ts hc (not_lt.mpr hfresh) hne]
  simp only [find_id_none_of_miss cs car_id hmiss]

theorem append_user_event_users_of_ok (env : Env) (req : Req)
    (cid : Option String) (st : St) (hap : env.appendFails = false) :
    (append_user_event env req cid st).users = st.users ++ [eventRow req cid] := by
  unfold append_user_event
  rw [hap]
  rfl

theorem api_car_detail_snd_users (env : Env) (now : Int) (req : Req)
    (car_id : String) (st : St) :
    ((api_car_detail env now req car_id st).2).users
      = (append_user_event env req (some car_id) st).users := by
  simp only [api_car_detail]

/-- C5: GET /api/cars/{car_id} against a fresh non-empty cached car list fails
with 404 "Car not found" iff no cached car's id equals car_id (case-sensitive
string equality); otherwise the response is built from the first match: a copy
carrying `photos` as the list of URLs, `cover_image` equal to the first photo
URL (null, the rendering of Python None, when there are no photos), no
`photos_folder_id`, and every other key of the matched car unchanged. The
well-formedness hypothesis hwf (every cached car has a string id) mirrors the
source's unguarded `c["id"]` access. -/
theorem api_car_detail_not_found_iff (env : Env) (now : Int) (req : Req)
    (car_id : String) (st : St) (cs : List (Dict JVal)) (ts : Int)
    (hc : st.cache "cars" = some ⟨.cars cs, ts⟩)
    (hfresh : now - ts ≤ CACHE_TTL_CARS)
    (hne : cs.isEmpty = false)
    (hwf : ∀ x ∈ cs, ∃ s, dget x "id" = some (JVal.s s)) :
    ((∀ x ∈ cs, dget x "id" ≠ some (JVal.s car_id)) →
        (api_car_detail env now req car_id st).1
          = .error (.httpExc 404 "Car not found"))
    ∧ ∀ base, cs.find? (fun x => decide (dget x "id" = some (JVal.s car_id)))
          = some base →
        ((api_car_detail env now req car_id st).1
          ≠ .error (.httpExc 404 "Car not found"))
        ∧ ∀ ps, load_photos env ((dget base "photos_folder_id").bind jStr) = .ok ps →
            ∃ car, (api_car_detail env now req car_id st).1 = .ok car
              ∧ dget car "photos" = some (JVal.arr (ps.map (fun p => p.2)))
              ∧ dget car "cover_image"
                  = some (match (ps.map (fun p => p.2)).head? with
                     | some u => JVal.s u
                     | none => JVal.null)
              ∧ dget car "photos_folder_id" = none
              ∧ ∀ k2, k2 ≠ "photos" → k2 ≠ "cover_image" →
                  k2 ≠ "photos_folder_id" → dget car k2 = dget base k2 := by
  have hl := load_cars_hit env now st.cache cs ts hc (not_lt.mpr hfresh) hne
  constructor
  · intro hmiss
    rw [api_car_detail_fst]
    exact api_car_detail_response_miss_404 env now car_id st.cache cs ts hc hfresh hne hmiss
  · intro base hfind
    obtain ⟨s, hid⟩ := hwf base (List.mem_of_find?_eq_some hfind)
    have hbne : base.isEmpty = false := by
      cases base with
      | nil => exact absurd hid (by rw [show dget ([] : Dict JVal) "id" = none from rfl]; exact fun hh => Option.noConfusion hh)
      | cons hd tl => rfl
    constructor
    · rw [api_car_detail_fst]
      unfold api_car_detail_response
      rw [hl]
      simp only [hfind, hbne]
      cases hp : load_photos env ((dget base "photos_folder_id").bind jStr) with
      | error e =>
        simp only [hp]
        intro hcon
        exact ApiErr.noConfusion (Except.error.inj hcon)
      | ok photos =>
        simp only [hp]
        intro hcon
        exact Except.noConfusion hcon
    · intro ps hp
      rw [api_car_detail_fst]
      unfold api_car_detail_response
      rw [hl]
      simp only [hfind, hbne, hp]
      refine ⟨dpop (dset (dset base "photos" (.arr (ps.map (fun p => p.2))))
        "cover_image"
        (match (ps.map (fun p => p.2)).head? with
         | some u => JVal.s u
         | none => JVal.null)) "photos_folder_id", rfl, ?_, ?_, ?_, ?_⟩
      · rw [dget_dpop_ne _ _ _ (by decide), dget_dset_ne _ _ _ _ (by decide),
            dget_dset_self]
      · rw [dget_dpop_ne _ _ _ (by decide), dget_dset_self]
      · exact dget_dpop_self _ _
      · intro k2 hk2a hk2b hk2c
        rw [dget_dpop_ne _ _ _ hk2c, dget_dset_ne _ _ _ _ hk2b,
            dget_dset_ne _ _ _ _ hk2a]

/-- Witness for C5: against the cached car a1 with photo folder FD1 holding
one jpg, id "a1" yields the enriched body and id "zz" yields 404. -/
theorem api_car_detail_not_found_iff_witness :
    stC5.cache "cars" = some ⟨.cars [carW], 0⟩
    ∧ ((10 : Int) - 0 ≤ CACHE_TTL_CARS)
    ∧ [carW].isEmpty = false
    ∧ dget carW "id" = some (JVal.s "a1")
    ∧ (api_car_detail envC5 10 reqW "zz" stC5).1
        = .error (.httpExc 404 "Car not found")
    ∧ (api_car_detail envC5 10 reqW "a1" stC5).1
        ≠ .error (.httpExc 404 "Car not found") :=
  ⟨by decide, by decide, by decide, by decide,
   (api_car_detail_not_found_iff envC5 10 reqW "zz" stC5 [carW] 0 (by decide)
      (by decide) (by decide)
      (fun x hx => by
        rw [List.mem_singleton] at hx
        subst hx
        exact ⟨"a1", rfl⟩)).1
     (fun x hx => by
        rw [List.mem_singleton] at hx
        subst hx
        decide),
   ((api_car_detail_not_found_iff envC5 10 reqW "a1" stC5 [carW] 0 (by decide)
      (by decide) (by decide)
      (fun x hx => by
        rw [List.mem_singleton] at hx
        subst hx
        exact ⟨"a1", rfl⟩)).2 carW (by decide)).1⟩

/-- C10: the detail endpoint appends the user event before the car lookup, so
even for a car_id matching nothing the event is still attempted — when the
append infrastructure works (appendFails = false) the users sheet gains
exactly the event row while the request returns 404; the NotFound outcome
never suppresses the logging side effect. -/
theorem api_car_detail_logs_event_before_lookup (env : Env) (now : Int)
    (req : Req) (car_id : String) (st : St) (cs : List (Dict JVal)) (ts : Int)
    (hc : st.cache "cars" = some ⟨.cars cs, ts⟩)
    (hfresh : now - ts ≤ CACHE_TTL_CARS)
    (hne : cs.isEmpty = false)
    (hmiss : ∀ x ∈ cs, dget x "id" ≠ some (JVal.s car_id))
    (hap : env.appendFails = false) :
    (api_car_detail env now req car_id st).1
      = .error (.httpExc 404 "Car not found")
    ∧ ((api_car_detail env now req car_id st).2).users
        = st.users ++ [eventRow req (some car_id)] := by
  constructor
  · rw [api_car_detail_fst]
    exact api_car_detail_response_miss_404 env now car_id st.cache cs ts hc hfresh hne hmiss
  · rw [api_car_detail_snd_users]
    exact append_user_event_users_of_ok env req (some car_id) st hap

/-- Witness for C10: the concrete no-match request "zz" still logs its event
row and returns 404. -/
theorem api_car_detail_logs_event_before_lookup_witness :
    stC5.cache "cars" = some ⟨.cars [carW], 0⟩
    ∧ envC5.appendFails = false
    ∧ (api_car_detail envC5 10 reqW "zz" stC5).1
        = .error (.httpExc 404 "Car not found")
    ∧ ((api_car_detail envC5 10 reqW "zz" stC5).2).users
        = stC5.users ++ [eventRow reqW (some "zz")] :=
  ⟨by decide, by decide,
   (api_car_detail_logs_event_before_lookup envC5 10 reqW "zz" stC5 [carW] 0
      (by decide) (by decide) (by decide)
      (fun x hx => by
        rw [List.mem_singleton] at hx
        subst hx
        decide)
      (by decide)).1,
   (api_car_detail_logs_event_before_lookup envC5 10 reqW "zz" stC5 [carW] 0
      (by decide) (by decide) (by decide)
      (fun x hx => by
        rw [List.mem_singleton] at hx
        subst hx
        decide)
      (by decide)).2⟩

end AbcBackend
